import Mathlib

/-!
# InsightHub paginated report scripts — verification of the layout spec

Shallow embedding of the ad-hoc PDF layout code of the InsightHub analysis
scripts (reportlab canvas calls), centred on the `draw_text_lines` helpers of
`cancer_analysis.py` / `titanic_analysis.py` / `diabetes.py`, the inline
overflow loops of `death_causes.py` / `hiv_insight.py`, and the page/footer
structure of `generate_cancer_pdf` and `generate_pdf` (HIV).

Canvas calls are modelled as an event trace; the vertical cursor is an `Int`.
The page size is `letter` (612 × 792 points).
-/

namespace InsightHub

def pageWidth : Int := 612
def pageHeight : Int := 792

/-- One reportlab canvas call, as the scripts issue them. -/
inductive Event where
  | setFont (name : String) (size : Int)
  | setFill (color : String)
  | drawString (x y : Int) (text : String)
  | drawCentred (x y : Int) (text : String)
  | drawImage (path : String) (x y w h : Int)
  | rule (x1 y1 x2 y2 : Int)
  | setStroke (color : String)
  | setLineWidth (w : Int)
  | showPage
  | save
  | acquire
deriving DecidableEq, Repr

/-- The footer string shared verbatim by every script's `add_footer`. -/
def footerText : String :=
  "Generated by Insight Hub Analysis Program created by Mwenda E. Njagi at GitHub.com. Link: https://github.com/MwendaKE/InsightHub."

/-- `add_footer`: set grey oblique small font, draw the footer centred at
`(width/2, 20)`.  Identical in every script. -/
def addFooter : List Event :=
  [.setFill "#666666", .setFont "Helvetica-Oblique" 8,
   .drawCentred (pageWidth / 2) 20 footerText]

/-- Parameters of `draw_text_lines(lines, start_y, line_height=15,
left_margin=70, right_margin=50, font_name="Helvetica", font_size=10,
text_color=HexColor('#333333'))`.  `primaryColor` is the script-level colour
used by the continuation header; `header` records whether the script draws the
"Continued Analysis" header after a break (cancer/titanic: yes, diabetes: no). -/
structure TLParams where
  lineHeight : Int
  leftMargin : Int
  fontName : String
  fontSize : Int
  textColor : String
  primaryColor : String
  header : Bool
deriving Repr

/-- The defaults used by every `draw_text_lines` call in `cancer_analysis.py`. -/
def cancerP : TLParams :=
  ⟨15, 70, "Helvetica", 10, "#333333", "#E63946", true⟩

/-- The defaults of `titanic_analysis.py` (same helper, different primary colour). -/
def titanicP : TLParams :=
  ⟨15, 70, "Helvetica", 10, "#333333", "#1E4D79", true⟩

/-- The defaults of `diabetes.py` (no continuation header after a break). -/
def diabetesP : TLParams :=
  ⟨15, 70, "Helvetica", 10, "#333333", "#2E86AB", false⟩

/-- The event sequence a `draw_text_lines` page break emits: `add_footer()`,
`showPage()`, re-set font and colour, and (cancer/titanic) the
"Continued Analysis" header followed by another font/colour re-set. -/
def breakEvs (p : TLParams) : List Event :=
  addFooter ++ [.showPage, .setFont p.fontName p.fontSize, .setFill p.textColor]
  ++ (if p.header then
        [.setFill p.primaryColor, .setFont "Helvetica-Bold" 16,
         .drawString 50 (pageHeight - 30) "Continued Analysis",
         .setFont p.fontName p.fontSize, .setFill p.textColor]
      else [])

/-- The `for line in lines` loop of `draw_text_lines`: if `current_y < 50`
take a page break and reset the cursor to `height - 50`; then draw the line at
`(left_margin, current_y)` and decrement the cursor by `line_height`.
Returns the emitted events and the final cursor. -/
def drawTextLinesGo (p : TLParams) : Int → List String → List Event × Int
  | y, [] => ([], y)
  | y, l :: ls =>
    if y < 50 then
      let r := drawTextLinesGo p ((pageHeight - 50) - p.lineHeight) ls
      (breakEvs p ++ .drawString p.leftMargin (pageHeight - 50) l :: r.1, r.2)
    else
      let r := drawTextLinesGo p (y - p.lineHeight) ls
      (.drawString p.leftMargin y l :: r.1, r.2)

/-- `draw_text_lines`: set the requested font and colour, then run the loop. -/
def drawTextLines (p : TLParams) (lines : List String) (startY : Int) :
    List Event × Int :=
  let r := drawTextLinesGo p startY lines
  (.setFont p.fontName p.fontSize :: .setFill p.textColor :: r.1, r.2)

/-- The successive values the cursor variable `current_y` takes at the head of
each loop iteration of `draw_text_lines`, with the final value appended. -/
def cursorValues (p : TLParams) : Int → List String → List Int
  | y, [] => [y]
  | y, _ :: ls =>
    y :: cursorValues p ((if y < 50 then pageHeight - 50 else y) - p.lineHeight) ls

/-- All `drawString` calls of a trace, as `(x, y, text)` triples. -/
def textDraws (evs : List Event) : List (Int × Int × String) :=
  evs.filterMap fun e =>
    match e with
    | .drawString x y t => some (x, y, t)
    | _ => none

/-- The `drawString` calls issued at the scripts' content left margin `x = 70`. -/
def lineDraws (evs : List Event) : List (Int × Int × String) :=
  (textDraws evs).filter fun d => d.1 = 70

/-- Number of `showPage` calls (= page breaks) in a trace. -/
def showPageCount (evs : List Event) : Nat :=
  evs.countP fun e => e matches .showPage

/-- `true` when a `drawString` call sits strictly below the given baseline. -/
def drawStringBelow (m : Int) : Event → Bool
  | .drawString _ y _ => decide (y < m)
  | _ => false

theorem drawTextLinesGo_nil (p : TLParams) (y : Int) :
    drawTextLinesGo p y [] = ([], y) := rfl

/-- The only `drawString` among a break's events is the continuation header,
drawn at `y = pageHeight - 30 = 762`, well above the bottom margin. -/
theorem breakEvs_no_draw_below (p : TLParams) :
    ∀ e ∈ breakEvs p, drawStringBelow 50 e = false := by
  intro e he
  cases e with
  | setFont n s => rfl
  | setFill c => rfl
  | drawCentred x y t => rfl
  | drawImage q x y w h => rfl
  | rule a b c d => rfl
  | setStroke c => rfl
  | setLineWidth w => rfl
  | showPage => rfl
  | save => rfl
  | acquire => rfl
  | drawString x y t =>
    by_cases hh : p.header
    · simp only [breakEvs, addFooter, hh, if_true, List.mem_append,
        List.mem_cons, List.not_mem_nil, or_false] at he
      simp only [Event.drawString.injEq, reduceCtorEq, false_or, or_false] at he
      obtain ⟨hx, hy, ht⟩ := he
      subst hx; subst hy; subst ht
      rfl
    · simp only [breakEvs, addFooter, hh, if_false, List.mem_append,
        List.mem_cons, List.not_mem_nil, or_false] at he
      simp at he

/-- No `drawString` emitted by the loop sits below `y = 50`: a line is drawn at
the current cursor only after the `current_y < 50` check has passed, or at the
fresh-page position `742`; the continuation header is at `762`. -/
theorem go_no_draw_below (p : TLParams) (lines : List String) (y : Int) :
    ∀ e ∈ (drawTextLinesGo p y lines).1, drawStringBelow 50 e = false := by
  induction lines generalizing y with
  | nil => intro e he; simp [drawTextLinesGo] at he
  | cons l ls ih =>
    intro e he
    by_cases hy : y < 50
    · simp only [drawTextLinesGo, if_pos hy, List.mem_append, List.mem_cons] at he
      rcases he with hb | hb | hb
      · exact breakEvs_no_draw_below p e hb
      · subst hb
        simp only [drawStringBelow, decide_eq_false_iff_not, pageHeight]
        omega
      · exact ih _ e hb
    · simp only [drawTextLinesGo, if_neg hy, List.mem_cons] at he
      rcases he with hb | hb
      · subst hb
        simp only [drawStringBelow, decide_eq_false_iff_not]
        omega
      · exact ih _ e hb

/-- Cursor update of one loop iteration, before the decrement: a cursor below
50 is reset to the fresh-page position `pageHeight - 50 = 742`. -/
def adjY (c : Int) : Int := if c < 50 then pageHeight - 50 else c

theorem cursorValues_expose (p : TLParams) (y : Int) (lines : List String) :
    cursorValues p y lines = y :: (cursorValues p y lines).tail := by
  cases lines <;> rfl

theorem cursorValues_length (p : TLParams) (y : Int) (lines : List String) :
    (cursorValues p y lines).length = lines.length + 1 := by
  induction lines generalizing y with
  | nil => rfl
  | cons l ls ih => simp [cursorValues, ih]

theorem cursorValues_ne_nil (p : TLParams) (y : Int) (lines : List String) :
    cursorValues p y lines ≠ [] := by
  cases lines <;> simp [cursorValues]

theorem textDraws_append (a b : List Event) :
    textDraws (a ++ b) = textDraws a ++ textDraws b := by
  simp [textDraws]

theorem lineDraws_append (a b : List Event) :
    lineDraws (a ++ b) = lineDraws a ++ lineDraws b := by
  simp [lineDraws, textDraws]

theorem lineDraws_breakEvs_cancer : lineDraws (breakEvs cancerP) = [] := by decide

theorem showPageCount_append (a b : List Event) :
    showPageCount (a ++ b) = showPageCount a + showPageCount b := by
  simp [showPageCount]

theorem showPageCount_breakEvs_cancer : showPageCount (breakEvs cancerP) = 1 := by
  decide

/-- Closed form of the loop's content draws: the `i`-th input line is drawn at
`x = 70` and at `adjY` of the `i`-th cursor value, and page breaks are exactly
the loop iterations whose entry cursor is `< 50`. -/
theorem lineDraws_go_closed (lines : List String) (y : Int) :
    lineDraws (drawTextLinesGo cancerP y lines).1
      = (lines.zip (((cursorValues cancerP y lines).dropLast).map adjY)).map
          (fun q => ((70 : Int), q.2, q.1))
    ∧ showPageCount (drawTextLinesGo cancerP y lines).1
      = ((cursorValues cancerP y lines).dropLast).countP (fun c => decide (c < 50)) := by
  induction lines generalizing y with
  | nil => exact ⟨rfl, rfl⟩
  | cons l ls ih =>
    have hne := cursorValues_ne_nil cancerP ((adjY y) - 15) ls
    have hdl : (cursorValues cancerP y (l :: ls)).dropLast
        = y :: (cursorValues cancerP ((adjY y) - 15) ls).dropLast := by
      have : cursorValues cancerP y (l :: ls)
          = y :: cursorValues cancerP ((adjY y) - 15) ls := by
        simp [cursorValues, adjY, cancerP]
      rw [this, List.dropLast_cons_of_ne_nil hne]
    by_cases hy : y < 50
    · have hgo : drawTextLinesGo cancerP y (l :: ls)
          = (breakEvs cancerP ++ .drawString 70 (pageHeight - 50) l ::
              (drawTextLinesGo cancerP ((pageHeight - 50) - 15) ls).1,
             (drawTextLinesGo cancerP ((pageHeight - 50) - 15) ls).2) := by
        simp [drawTextLinesGo, if_pos hy, cancerP]
      have hadj : adjY y = pageHeight - 50 := by simp [adjY, if_pos hy]
      constructor
      · have L : lineDraws (drawTextLinesGo cancerP y (l :: ls)).1
            = ((70 : Int), pageHeight - 50, l)
              :: lineDraws (drawTextLinesGo cancerP ((pageHeight - 50) - 15) ls).1 := by
          rw [hgo]
          have h2 := lineDraws_append (breakEvs cancerP)
            (.drawString 70 (pageHeight - 50) l ::
              (drawTextLinesGo cancerP ((pageHeight - 50) - 15) ls).1)
          rw [h2, lineDraws_breakEvs_cancer]
          simp [lineDraws, textDraws]
        rw [L, hdl, List.map_cons, List.zip_cons_cons, List.map_cons, hadj]
        exact congrArg (List.cons _) ((ih ((pageHeight - 50) - 15)).1)
      · have L2 : showPageCount (drawTextLinesGo cancerP y (l :: ls)).1
            = 1 + showPageCount (drawTextLinesGo cancerP ((pageHeight - 50) - 15) ls).1 := by
          rw [hgo]
          have h2 := showPageCount_append (breakEvs cancerP)
            (.drawString 70 (pageHeight - 50) l ::
              (drawTextLinesGo cancerP ((pageHeight - 50) - 15) ls).1)
          rw [h2, showPageCount_breakEvs_cancer]
          simp [showPageCount]
        rw [L2, hdl, List.countP_cons, hadj, (ih ((pageHeight - 50) - 15)).2]
        simp [hy]
        omega
    · have hgo : drawTextLinesGo cancerP y (l :: ls)
          = (.drawString 70 y l :: (drawTextLinesGo cancerP (y - 15) ls).1,
             (drawTextLinesGo cancerP (y - 15) ls).2) := by
        simp [drawTextLinesGo, if_neg hy, cancerP]
      have hadj : adjY y = y := by simp [adjY, if_neg hy]
      constructor
      · have L : lineDraws (drawTextLinesGo cancerP y (l :: ls)).1
            = ((70 : Int), y, l) :: lineDraws (drawTextLinesGo cancerP (y - 15) ls).1 := by
          rw [hgo]
          simp [lineDraws, textDraws]
        rw [L, hdl, List.map_cons, List.zip_cons_cons, List.map_cons, hadj]
        exact congrArg (List.cons _) ((ih (y - 15)).1)
      · have L2 : showPageCount (drawTextLinesGo cancerP y (l :: ls)).1
            = showPageCount (drawTextLinesGo cancerP (y - 15) ls).1 := by
          rw [hgo]
          simp [showPageCount]
        rw [L2, hdl, List.countP_cons, hadj, (ih (y - 15)).2]
        simp [hy]

theorem dtl_all_at_margin_or_above (p : TLParams) (lines : List String)
    (startY : Int) :
    ((drawTextLines p lines startY).1.all fun e => !drawStringBelow 50 e) = true := by
  rw [List.all_eq_true]
  intro e he
  simp only [drawTextLines, List.mem_cons] at he
  rcases he with h | h | h
  · subst h; rfl
  · subst h; rfl
  · simp [go_no_draw_below p lines startY e h]

/-- **C8** (confirmed).  For every parameter set, every list of input lines and
every starting cursor (even one below the bottom margin), every `drawString`
issued by `draw_text_lines` is at `y ≥ 50`: a line about to be drawn with the
cursor below 50 first triggers a page break, so no content line is ever drawn
below the bottom margin or off the page. -/
theorem draw_text_lines_never_below_margin (p : TLParams) (lines : List String)
    (startY : Int) :
    ((drawTextLines p lines startY).1.all fun e => !drawStringBelow 50 e) = true :=
  dtl_all_at_margin_or_above p lines startY

/-- **C10** (confirmed).  `draw_text_lines` on an empty list draws nothing and
takes no page break for any starting cursor, even one below the bottom margin;
it returns the starting cursor unchanged, and its only canvas effect is the
initial `setFont`/`setFillColor` pair with the given style parameters. -/
theorem draw_text_lines_empty (p : TLParams) (startY : Int) :
    drawTextLines p [] startY
      = ([.setFont p.fontName p.fontSize, .setFill p.textColor], startY)
    ∧ showPageCount (drawTextLines p [] startY).1 = 0
    ∧ lineDraws (drawTextLines p [] startY).1 = [] := by
  refine ⟨rfl, rfl, rfl⟩

/-- Modelled from the spec: the Cursor contract `advance(height)` of spec
§4.1 — the result is `some drawY` (fits, draw at the current `y`) exactly when
`y - height ≥ bottomMargin = 50`, and `none` (caller must break) otherwise.
Written from the spec's words, for comparison with the code's behaviour. -/
def advanceSpec (y h : Int) : Option Int :=
  if 50 ≤ y - h then some y else none

theorem cancerP_lineHeight : cancerP.lineHeight = 15 := rfl

theorem cursorValues_upper (lines : List String) (y : Int) :
    ∀ v ∈ cursorValues cancerP y lines, v ≤ max y 727 := by
  induction lines generalizing y with
  | nil =>
    intro v hv
    simp only [cursorValues, List.mem_singleton] at hv
    subst hv; exact le_max_left _ _
  | cons l ls ih =>
    intro v hv
    simp only [cursorValues] at hv
    rcases List.mem_cons.mp hv with rfl | hv2
    · exact le_max_left _ _
    · have hsplit := le_max_iff.mp (ih _ v hv2)
      by_cases hy : y < 50
      · have hY2 : (if y < 50 then pageHeight - 50 else y) - cancerP.lineHeight
            = 727 := by
          rw [if_pos hy, cancerP_lineHeight]; rfl
        rw [hY2] at hsplit
        exact le_max_iff.mpr (Or.inr (by omega))
      · have hY2 : (if y < 50 then pageHeight - 50 else y) - cancerP.lineHeight
            = y - 15 := by
          rw [if_neg hy, cancerP_lineHeight]
        rw [hY2] at hsplit
        rcases hsplit with h3 | h3
        · exact le_max_iff.mpr (Or.inl (by omega))
        · exact le_max_iff.mpr (Or.inr h3)

theorem cursorValues_tail_lower (lines : List String) (y : Int) :
    ∀ v ∈ (cursorValues cancerP y lines).tail, 35 ≤ v := by
  induction lines generalizing y with
  | nil => intro v hv; simp [cursorValues] at hv
  | cons l ls ih =>
    intro v hv
    simp only [cursorValues, List.tail_cons] at hv
    rw [cursorValues_expose cancerP _ ls] at hv
    rcases List.mem_cons.mp hv with rfl | htl
    · by_cases hy : y < 50
      · rw [if_pos hy, cancerP_lineHeight]; decide
      · rw [if_neg hy, cancerP_lineHeight]; omega
    · exact ih _ v htl

/-- Last content draw of the loop: for a nonempty input, the draw list ends in
a draw `d`, and the loop's returned cursor is exactly `d`'s `y` minus the line
height (15). -/
theorem go_last_draw (lines : List String) (y : Int) (hne : lines ≠ []) :
    ∃ rest d, lineDraws (drawTextLinesGo cancerP y lines).1 = rest ++ [d]
      ∧ (drawTextLinesGo cancerP y lines).2 = d.2.1 - 15 := by
  induction lines generalizing y with
  | nil => exact absurd rfl hne
  | cons l ls ih =>
    by_cases hy : y < 50
    · have hgo : drawTextLinesGo cancerP y (l :: ls)
          = (breakEvs cancerP ++ .drawString 70 (pageHeight - 50) l ::
              (drawTextLinesGo cancerP ((pageHeight - 50) - 15) ls).1,
             (drawTextLinesGo cancerP ((pageHeight - 50) - 15) ls).2) := by
        simp [drawTextLinesGo, if_pos hy, cancerP]
      have hL : lineDraws (drawTextLinesGo cancerP y (l :: ls)).1
          = ((70 : Int), pageHeight - 50, l)
            :: lineDraws (drawTextLinesGo cancerP ((pageHeight - 50) - 15) ls).1 := by
        rw [hgo]
        have h2 := lineDraws_append (breakEvs cancerP)
          (.drawString 70 (pageHeight - 50) l ::
            (drawTextLinesGo cancerP ((pageHeight - 50) - 15) ls).1)
        rw [h2, lineDraws_breakEvs_cancer]
        simp [lineDraws, textDraws]
      cases ls with
      | nil =>
        refine ⟨[], ((70 : Int), pageHeight - 50, l), ?_, ?_⟩
        · rw [hL]; rfl
        · rw [hgo]; rfl
      | cons l2 ls2 =>
        obtain ⟨rest, d, hr, hd⟩ := ih ((pageHeight - 50) - 15) (by simp)
        refine ⟨((70 : Int), pageHeight - 50, l) :: rest, d, ?_, ?_⟩
        · rw [hL, hr]; rfl
        · rw [hgo]; exact hd
    · have hgo : drawTextLinesGo cancerP y (l :: ls)
          = (.drawString 70 y l :: (drawTextLinesGo cancerP (y - 15) ls).1,
             (drawTextLinesGo cancerP (y - 15) ls).2) := by
        simp [drawTextLinesGo, if_neg hy, cancerP]
      have hL : lineDraws (drawTextLinesGo cancerP y (l :: ls)).1
          = ((70 : Int), y, l) :: lineDraws (drawTextLinesGo cancerP (y - 15) ls).1 := by
        rw [hgo]
        simp [lineDraws, textDraws]
      cases ls with
      | nil =>
        refine ⟨[], ((70 : Int), y, l), ?_, ?_⟩
        · rw [hL]; rfl
        · rw [hgo]; rfl
      | cons l2 ls2 =>
        obtain ⟨rest, d, hr, hd⟩ := ih (y - 15) (by simp)
        refine ⟨((70 : Int), y, l) :: rest, d, ?_, ?_⟩
        · rw [hL, hr]; rfl
        · rw [hgo]; exact hd

/-- Every `drawString` of the loop trace is either a content line at `x = 70`
or the continuation header at `(50, 762)`. -/
theorem textDraws_go_shape (lines : List String) (y : Int) :
    ∀ d ∈ textDraws (drawTextLinesGo cancerP y lines).1,
      d.1 = 70 ∨ d = (50, pageHeight - 30, "Continued Analysis") := by
  induction lines generalizing y with
  | nil => intro d hd; simp [drawTextLinesGo, textDraws] at hd
  | cons l ls ih =>
    intro d hd
    by_cases hy : y < 50
    · have hgo : drawTextLinesGo cancerP y (l :: ls)
          = (breakEvs cancerP ++ .drawString 70 (pageHeight - 50) l ::
              (drawTextLinesGo cancerP ((pageHeight - 50) - 15) ls).1,
             (drawTextLinesGo cancerP ((pageHeight - 50) - 15) ls).2) := by
        simp [drawTextLinesGo, if_pos hy, cancerP]
      rw [hgo] at hd
      rw [textDraws_append] at hd
      rcases List.mem_append.mp hd with hb | hb
      · right
        have : textDraws (breakEvs cancerP)
            = [((50 : Int), pageHeight - 30, "Continued Analysis")] := by decide
        rw [this] at hb
        simpa using hb
      · have : textDraws (.drawString 70 (pageHeight - 50) l ::
            (drawTextLinesGo cancerP ((pageHeight - 50) - 15) ls).1)
            = ((70 : Int), pageHeight - 50, l)
              :: textDraws (drawTextLinesGo cancerP ((pageHeight - 50) - 15) ls).1 := by
          simp [textDraws]
        rw [this] at hb
        rcases List.mem_cons.mp hb with rfl | hb2
        · left; rfl
        · exact ih _ d hb2
    · have hgo : drawTextLinesGo cancerP y (l :: ls)
          = (.drawString 70 y l :: (drawTextLinesGo cancerP (y - 15) ls).1,
             (drawTextLinesGo cancerP (y - 15) ls).2) := by
        simp [drawTextLinesGo, if_neg hy, cancerP]
      rw [hgo] at hd
      have : textDraws (.drawString 70 y l ::
          (drawTextLinesGo cancerP (y - 15) ls).1)
          = ((70 : Int), y, l) :: textDraws (drawTextLinesGo cancerP (y - 15) ls).1 := by
        simp [textDraws]
      rw [this] at hd
      rcases List.mem_cons.mp hd with rfl | hb2
      · left; rfl
      · exact ih _ d hb2

theorem lineDraws_drawTextLines (p : TLParams) (lines : List String) (y : Int) :
    lineDraws (drawTextLines p lines y).1
      = lineDraws (drawTextLinesGo p y lines).1 := by
  simp [drawTextLines, lineDraws, textDraws]

theorem showPageCount_drawTextLines (p : TLParams) (lines : List String) (y : Int) :
    showPageCount (drawTextLines p lines y).1
      = showPageCount (drawTextLinesGo p y lines).1 := by
  simp [drawTextLines, showPageCount]

theorem textDraws_drawTextLines (p : TLParams) (lines : List String) (y : Int) :
    textDraws (drawTextLines p lines y).1
      = textDraws (drawTextLinesGo p y lines).1 := by
  simp [drawTextLines, textDraws]

/-- **C1** (amended; the claim's fit test `y - height ≥ 50` is refuted by
`draw_text_lines_fit_rule_counterexample`).  A line is placed on the current
page iff the cursor at its loop entry is `≥ 50`: the `i`-th line is drawn at
`x = 70` and `y = adjY cᵢ` (`cᵢ` if `cᵢ ≥ 50`, else the fresh-page `742`),
the cursor then decreases by the line height, and the number of page breaks
equals the number of loop entries whose cursor is `< 50`. -/
theorem draw_text_lines_placement_rule (lines : List String) (startY : Int) :
    lineDraws (drawTextLines cancerP lines startY).1
      = (lines.zip (((cursorValues cancerP startY lines).dropLast).map adjY)).map
          (fun q => ((70 : Int), q.2, q.1))
    ∧ showPageCount (drawTextLines cancerP lines startY).1
      = ((cursorValues cancerP startY lines).dropLast).countP
          (fun c => decide (c < 50)) := by
  rw [lineDraws_drawTextLines, showPageCount_drawTextLines]
  exact lineDraws_go_closed lines startY

/-- **C1** counterexample: at cursor `y = 55` a line of height 15 has
`y - 15 = 40 < 50`, so by the claimed rule it must not be placed on the current
page; the code nevertheless draws it at `y = 55` and takes no page break. -/
theorem draw_text_lines_fit_rule_counterexample :
    advanceSpec 55 15 = none
    ∧ lineDraws (drawTextLines cancerP ["a"] 55).1 = [(70, 55, "a")]
    ∧ showPageCount (drawTextLines cancerP ["a"] 55).1 = 0 := by
  decide

/-- **C3** (amended; the claimed invariant `bottomMargin ≤ y` is refuted by
`cursor_invariant_counterexample`).  The cursor values the loop takes are
bounded above by `max startY 727`; every value after the first is `≥ 35 =
bottomMargin - lineHeight` (the cursor may dip up to one line height below the
margin before the break is detected); and the cursor is reset to `742` exactly
once per page break — breaks correspond one-to-one to loop entries with
cursor `< 50`. -/
theorem cursor_range_amended (lines : List String) (startY : Int) :
    (∀ v ∈ cursorValues cancerP startY lines, v ≤ max startY 727)
    ∧ (∀ v ∈ (cursorValues cancerP startY lines).tail, 35 ≤ v)
    ∧ showPageCount (drawTextLines cancerP lines startY).1
      = ((cursorValues cancerP startY lines).dropLast).countP
          (fun c => decide (c < 50)) := by
  refine ⟨cursorValues_upper lines startY, cursorValues_tail_lower lines startY, ?_⟩
  rw [showPageCount_drawTextLines]
  exact (lineDraws_go_closed lines startY).2

theorem cursor_range_amended_witness :
    (85 : Int) ≤ max 100 727 ∧ (35 : Int) ≤ 85 :=
  ⟨(cursor_range_amended ["a", "b"] 100).1 85 (by decide),
   (cursor_range_amended ["a", "b"] 100).2.1 85 (by decide)⟩

/-- **C3** counterexample: placing two lines from `startY = 50`, the cursor
value at the head of the second iteration is `35 < 50 = bottomMargin`, while
content (the second line) is still being placed — the code then takes the
break it detects from this below-margin value. -/
theorem cursor_invariant_counterexample :
    cursorValues cancerP 50 ["a", "b"] = [50, 35, 727]
    ∧ ((35 : Int) < 50)
    ∧ showPageCount (drawTextLines cancerP ["a", "b"] 50).1 = 1 := by
  decide

theorem dtl_map_texts (lines : List String) (startY : Int) :
    (lineDraws (drawTextLines cancerP lines startY).1).map (fun d => d.2.2)
      = lines := by
  rw [lineDraws_drawTextLines, (lineDraws_go_closed lines startY).1]
  rw [List.map_map]
  have hlen : lines.length
      ≤ (((cursorValues cancerP startY lines).dropLast).map adjY).length := by
    rw [List.length_map, List.length_dropLast, cursorValues_length]
    omega
  exact List.map_fst_zip lines _ hlen

/-- **C9** (confirmed).  `draw_text_lines` draws each input line exactly once,
in order (the texts of the `x = 70` content draws are exactly `lines`); every
`drawString` is either a content line at the fixed left margin `x = 70` or the
continuation header; and for a nonempty input the returned cursor is exactly
one line height (15) below the `y` of the last content draw.  No line is
dropped or duplicated by a page break. -/
theorem draw_text_lines_each_line_once (lines : List String) (startY : Int) :
    ((lineDraws (drawTextLines cancerP lines startY).1).map (fun d => d.2.2) = lines)
    ∧ (∀ d ∈ textDraws (drawTextLines cancerP lines startY).1,
        d.1 = 70 ∨ d = (50, pageHeight - 30, "Continued Analysis"))
    ∧ (lines ≠ [] →
        ((lineDraws (drawTextLines cancerP lines startY).1).getLast?).map
            (fun d => d.2.1 - 15)
          = some (drawTextLines cancerP lines startY).2) := by
  refine ⟨dtl_map_texts lines startY, ?_, ?_⟩
  · intro d hd
    rw [textDraws_drawTextLines] at hd
    exact textDraws_go_shape lines startY d hd
  · intro hne
    obtain ⟨rest, d, hr, hd⟩ := go_last_draw lines startY hne
    rw [lineDraws_drawTextLines, hr, List.getLast?_concat]
    have hsnd : (drawTextLines cancerP lines startY).2
        = (drawTextLinesGo cancerP startY lines).2 := rfl
    rw [hsnd, hd]
    rfl

theorem draw_text_lines_each_line_once_witness :
    (["u", "v"] : List String) ≠ []
    ∧ ((lineDraws (drawTextLines cancerP ["u", "v"] 60).1).getLast?).map
        (fun d => d.2.1 - 15)
      = some (drawTextLines cancerP ["u", "v"] 60).2 :=
  ⟨by decide, (draw_text_lines_each_line_once ["u", "v"] 60).2.2 (by decide)⟩

/-- **C2** (amended; the claimed `BlockTooLargeError` is refuted by
`block_too_large_counterexample`).  The scripts define no `BlockTooLargeError`
and raise nothing: a text block whose height `15 × lines.length` exceeds the
usable page height 692 is simply split across pages — every one of its lines
is drawn (in order), none below `y = 50`, and the number of page breaks taken
is finite and exactly the number of loop entries with cursor `< 50`. -/
theorem oversized_block_is_split (lines : List String) (startY : Int)
    (_hbig : 692 < 15 * (lines.length : Int)) :
    ((lineDraws (drawTextLines cancerP lines startY).1).map (fun d => d.2.2) = lines)
    ∧ ((drawTextLines cancerP lines startY).1.all fun e => !drawStringBelow 50 e) = true
    ∧ showPageCount (drawTextLines cancerP lines startY).1
      = ((cursorValues cancerP startY lines).dropLast).countP
          (fun c => decide (c < 50)) := by
  refine ⟨dtl_map_texts lines startY,
    dtl_all_at_margin_or_above cancerP lines startY, ?_⟩
  rw [showPageCount_drawTextLines]
  exact (lineDraws_go_closed lines startY).2

theorem oversized_block_is_split_witness :
    692 < 15 * ((List.replicate 48 "x").length : Int)
    ∧ ((lineDraws (drawTextLines cancerP (List.replicate 48 "x") 742).1).map
        (fun d => d.2.2) = List.replicate 48 "x") :=
  ⟨by decide,
   (oversized_block_is_split (List.replicate 48 "x") 742 (by decide)).1⟩

/-- **C2** counterexample: a 48-line block (height 720 > usable 692) started on
an otherwise-empty page (`y = 742`) is rendered to completion — all 48 lines
drawn, exactly one page break taken, nothing below the margin — instead of any
`BlockTooLargeError` being raised (no such error exists in the scripts; the
embedding of the loop is a total function). -/
theorem block_too_large_counterexample :
    692 < 15 * ((List.replicate 48 "x").length : Int)
    ∧ (lineDraws (drawTextLines cancerP (List.replicate 48 "x") 742).1).length = 48
    ∧ showPageCount (drawTextLines cancerP (List.replicate 48 "x") 742).1 = 1
    ∧ ((drawTextLines cancerP (List.replicate 48 "x") 742).1.all
        fun e => !drawStringBelow 50 e) = true := by
  decide

/-! ## Canvas style state

reportlab's graphics state (active font and fill colour) is per page:
`showPage` resets it to the defaults (font Helvetica 12, black fill).  The
scripts must therefore re-issue `setFont`/`setFillColor` after every page
break themselves. -/

structure CState where
  font : String × Int
  fill : String
deriving DecidableEq, Repr

/-- The canvas state reportlab gives a fresh page. -/
def freshState : CState := ⟨("Helvetica", 12), "black"⟩

def stepState (s : CState) : Event → CState
  | .setFont n sz => ⟨(n, sz), s.fill⟩
  | .setFill c => ⟨s.font, c⟩
  | .showPage => freshState
  | _ => s

def execState (s : CState) (evs : List Event) : CState := evs.foldl stepState s

/-- Pair every event with the canvas state active when it executes. -/
def annotate (s : CState) : List Event → List (CState × Event)
  | [] => []
  | e :: es => (s, e) :: annotate (stepState s e) es

/-- The style `draw_text_lines` establishes and re-establishes: its
`font_name`/`font_size`/`text_color` parameters. -/
def tlState (p : TLParams) : CState := ⟨(p.fontName, p.fontSize), p.textColor⟩

/-- A content-line draw: a `drawString` at the scripts' left margin `x = 70`. -/
def isContentDraw : Event → Bool
  | .drawString x _ _ => x == 70
  | _ => false

/-- Break sequence of the inline overflow loop in `death_causes.py`
(`generate_pdf_report`, lines 461-465): footer, `showPage`, then only
`setFont("Helvetica", 10)` — the fill colour is *not* re-set. -/
def deathBreakEvs : List Event :=
  addFooter ++ [.showPage, .setFont "Helvetica" 10]

/-- The inline `for line in insights` loop of `death_causes.py` (lines
458-465): draw at `(70, y)`, decrement by 15, and if the cursor fell below 50
take a break that re-sets only the font. -/
def deathLoop : Int → List String → List Event
  | _, [] => []
  | y, l :: ls =>
    if y - 15 < 50 then
      .drawString 70 y l :: (deathBreakEvs ++ deathLoop (pageHeight - 50) ls)
    else
      .drawString 70 y l :: deathLoop (y - 15) ls

/-- The insights section of `death_causes.py`: fill `#333333` and font
Helvetica 10 are set once, then the loop runs from `y = height - 80`. -/
def deathInsights (lines : List String) : List Event :=
  .setFill "#333333" :: .setFont "Helvetica" 10 :: deathLoop (pageHeight - 80) lines

/-- Break sequence of the `for line in recommendations` loop of
`hiv_insight.py` (lines 453-458): footer, `showPage`, `setFont` only, then a
stray second `add_footer()` — which leaves the footer's own style active. -/
def hivBreakEvs : List Event :=
  addFooter ++ [.showPage, .setFont "Helvetica" 10] ++ addFooter

theorem annotate_append (s : CState) (a b : List Event) :
    annotate s (a ++ b) = annotate s a ++ annotate (execState s a) b := by
  induction a generalizing s with
  | nil => rfl
  | cons e es ih => simp [annotate, execState, List.foldl_cons, ih]

theorem mem_annotate_snd (a : CState × Event) (s : CState) (evs : List Event) :
    a ∈ annotate s evs → a.2 ∈ evs := by
  induction evs generalizing s with
  | nil => intro h; simp [annotate] at h
  | cons e es ih =>
    intro h
    rcases List.mem_cons.mp h with rfl | h2
    · exact List.mem_cons_self _ _
    · exact List.mem_cons_of_mem _ (ih _ h2)

theorem breakEvs_cancer_no_content :
    ∀ e ∈ breakEvs cancerP, isContentDraw e = false := by decide

theorem execState_breakEvs_cancer (s : CState) :
    execState s (breakEvs cancerP) = tlState cancerP := rfl

/-- Annotated content draws of the loop all carry the established text style:
each break re-sets both the font and the fill before the next content draw. -/
theorem annotate_go_style (lines : List String) (y : Int) :
    ∀ a ∈ annotate (tlState cancerP) (drawTextLinesGo cancerP y lines).1,
      isContentDraw a.2 = true → a.1 = tlState cancerP := by
  induction lines generalizing y with
  | nil => intro a ha; simp [drawTextLinesGo, annotate] at ha
  | cons l ls ih =>
    intro a ha hc
    by_cases hy : y < 50
    · have hgo : (drawTextLinesGo cancerP y (l :: ls)).1
          = breakEvs cancerP ++ .drawString 70 (pageHeight - 50) l ::
              (drawTextLinesGo cancerP ((pageHeight - 50) - 15) ls).1 := by
        simp [drawTextLinesGo, if_pos hy, cancerP]
      rw [hgo, annotate_append, execState_breakEvs_cancer] at ha
      rcases List.mem_append.mp ha with hb | hb
      · have := breakEvs_cancer_no_content a.2 (mem_annotate_snd a _ _ hb)
        rw [this] at hc
        cases hc
      · simp only [annotate] at hb
        rcases List.mem_cons.mp hb with rfl | hb2
        · rfl
        · have hstep : stepState (tlState cancerP)
              (.drawString 70 (pageHeight - 50) l) = tlState cancerP := rfl
          rw [hstep] at hb2
          exact ih _ a hb2 hc
    · have hgo : (drawTextLinesGo cancerP y (l :: ls)).1
          = .drawString 70 y l :: (drawTextLinesGo cancerP (y - 15) ls).1 := by
        simp [drawTextLinesGo, if_neg hy, cancerP]
      rw [hgo] at ha
      simp only [annotate] at ha
      rcases List.mem_cons.mp ha with rfl | hb2
      · rfl
      · have hstep : stepState (tlState cancerP) (.drawString 70 y l)
            = tlState cancerP := rfl
        rw [hstep] at hb2
        exact ih _ a hb2 hc

/-- **C4** (amended; refuted as stated by `style_continuity_counterexample`).
Inside the `draw_text_lines` helpers the pre-break style does survive every
break: starting from any canvas state, every content-line draw executes with
the given font and fill active (each break re-sets both).  But the inline
overflow loops re-establish only part of the style: after a break in
`death_causes.py` the active state is Helvetica 10 with the *default black
fill* (the pre-break fill `#333333` is not re-applied), and after a break in
`hiv_insight.py` the stray trailing `add_footer()` leaves the footer's own
grey oblique 8-point style active. -/
theorem style_continuity_across_breaks (s : CState) (lines : List String)
    (startY : Int) :
    (∀ a ∈ annotate s (drawTextLines cancerP lines startY).1,
        isContentDraw a.2 = true → a.1 = tlState cancerP)
    ∧ (∀ s2 : CState, execState s2 (breakEvs cancerP) = tlState cancerP)
    ∧ (∀ s2 : CState, execState s2 deathBreakEvs = ⟨("Helvetica", 10), "black"⟩)
    ∧ (∀ s2 : CState, execState s2 hivBreakEvs
        = ⟨("Helvetica-Oblique", 8), "#666666"⟩) := by
  refine ⟨?_, fun _ => rfl, fun _ => rfl, fun _ => rfl⟩
  intro a ha hc
  have hsplit : (drawTextLines cancerP lines startY).1
      = [.setFont "Helvetica" 10, .setFill "#333333"]
        ++ (drawTextLinesGo cancerP startY lines).1 := rfl
  rw [hsplit, annotate_append] at ha
  rcases List.mem_append.mp ha with hb | hb
  · have h2 := mem_annotate_snd a s _ hb
    simp only [List.mem_cons, List.not_mem_nil, or_false] at h2
    rcases h2 with h3 | h3 <;> (rw [h3] at hc; cases hc)
  · have hex : execState s [.setFont "Helvetica" 10, .setFill "#333333"]
        = tlState cancerP := rfl
    rw [hex] at hb
    exact annotate_go_style lines startY a hb hc

theorem style_continuity_across_breaks_witness :
    ((⟨("Helvetica", 10), "#333333"⟩ : CState),
      Event.drawString 70 742 "a").1 = tlState cancerP :=
  (style_continuity_across_breaks freshState ["a"] 742).1 _ (by decide) (by decide)

/-- The fill colour active at each content draw of the death-causes insights
loop, run from a fresh page. -/
def drawFillsAt70 (ann : List (CState × Event)) : List String :=
  ann.filterMap fun a =>
    match a.2 with
    | .drawString x _ _ => if x = 70 then some a.1.fill else none
    | _ => none

/-- **C4** counterexample: a 46-line run through the `death_causes.py`
insights loop (fill `#333333`, font Helvetica 10) takes one page break after
line 45; the resumed line 46 is drawn with the canvas *default black* fill,
not the pre-break `#333333` — the fill colour is not re-applied after the
break. -/
theorem style_continuity_counterexample :
    showPageCount (deathInsights (List.replicate 46 "x")) = 1
    ∧ drawFillsAt70 (annotate freshState (deathInsights (List.replicate 46 "x")))
      = List.replicate 45 "#333333" ++ ["black"]
    ∧ "black" ≠ "#333333" := by
  decide

/-! ## Whole-report traces: pages, footers, and the artifact lifecycle -/

/-- A footer-position draw: `drawCentredString` at `y = 20` (the fixed offset
from the page bottom used by every script's `add_footer`). -/
def isFooterPos : Event → Bool
  | .drawCentred _ y _ => y == 20
  | _ => false

/-- The one footer event `add_footer` emits. -/
def footerEv : Event := .drawCentred (pageWidth / 2) 20 footerText

/-- Fold checking that every page carries exactly one footer: count footer
draws since the last `showPage`; each `showPage` requires the count to be
exactly one. -/
def paStep : Bool × Nat → Event → Bool × Nat
  | (ok, n), .showPage => (ok && (n == 1), 0)
  | (ok, n), e => if isFooterPos e then (ok, n + 1) else (ok, n)

def runPA (s : Bool × Nat) (evs : List Event) : Bool × Nat :=
  evs.foldl paStep s

/-- Every page delimited by `showPage`, and the final page flushed by `save`,
carries exactly one footer draw. -/
def pagesOK (evs : List Event) : Bool :=
  (runPA (true, 0) evs).1 && ((runPA (true, 0) evs).2 == 1)

/-- Every footer-position draw is the one canonical footer event: same text,
centred at `(306, 20)`. -/
def footersIdent (evs : List Event) : Bool :=
  evs.all fun e => !isFooterPos e || e == footerEv

/-- Split a trace into its pages: segments delimited by `showPage`, plus the
trailing segment (the page flushed by `save`) when nonempty. -/
def splitPagesGo (cur : List Event) : List Event → List (List Event)
  | [] => if cur.isEmpty then [] else [cur.reverse]
  | .showPage :: es => cur.reverse :: splitPagesGo [] es
  | e :: es => splitPagesGo (e :: cur) es

def splitPages (evs : List Event) : List (List Event) :=
  splitPagesGo [] evs

theorem runPA_append (s : Bool × Nat) (a b : List Event) :
    runPA s (a ++ b) = runPA (runPA s a) b := by
  simp [runPA]

theorem runPA_breakEvs_cancer (ok : Bool) :
    runPA (ok, 0) (breakEvs cancerP) = (ok, 0) := by
  cases ok <;> rfl

theorem runPA_go (lines : List String) (y : Int) (ok : Bool) :
    runPA (ok, 0) (drawTextLinesGo cancerP y lines).1 = (ok, 0) := by
  induction lines generalizing y with
  | nil => rfl
  | cons l ls ih =>
    by_cases hy : y < 50
    · have hgo : (drawTextLinesGo cancerP y (l :: ls)).1
          = breakEvs cancerP ++ .drawString 70 (pageHeight - 50) l ::
              (drawTextLinesGo cancerP ((pageHeight - 50) - 15) ls).1 := by
        simp [drawTextLinesGo, if_pos hy, cancerP]
      rw [hgo, runPA_append, runPA_breakEvs_cancer]
      exact ih _
    · have hgo : (drawTextLinesGo cancerP y (l :: ls)).1
          = .drawString 70 y l :: (drawTextLinesGo cancerP (y - 15) ls).1 := by
        simp [drawTextLinesGo, if_neg hy, cancerP]
      rw [hgo]
      exact ih _

theorem runPA_drawTextLines (lines : List String) (y : Int) (ok : Bool) :
    runPA (ok, 0) (drawTextLines cancerP lines y).1 = (ok, 0) :=
  runPA_go lines y ok

theorem footersIdent_append (a b : List Event) :
    footersIdent (a ++ b) = (footersIdent a && footersIdent b) := by
  simp [footersIdent]

theorem footersIdent_go (lines : List String) (y : Int) :
    footersIdent (drawTextLinesGo cancerP y lines).1 = true := by
  induction lines generalizing y with
  | nil => rfl
  | cons l ls ih =>
    by_cases hy : y < 50
    · have hgo : (drawTextLinesGo cancerP y (l :: ls)).1
          = breakEvs cancerP ++ .drawString 70 (pageHeight - 50) l ::
              (drawTextLinesGo cancerP ((pageHeight - 50) - 15) ls).1 := by
        simp [drawTextLinesGo, if_pos hy, cancerP]
      rw [hgo, footersIdent_append]
      have h1 : footersIdent (breakEvs cancerP) = true := by decide
      have h2 : footersIdent (.drawString 70 (pageHeight - 50) l ::
          (drawTextLinesGo cancerP ((pageHeight - 50) - 15) ls).1) = true := by
        simp only [footersIdent, List.all_cons]
        rw [show ((!isFooterPos (.drawString 70 (pageHeight - 50) l)
              || .drawString 70 (pageHeight - 50) l == footerEv) = true) from rfl]
        simpa [footersIdent] using ih ((pageHeight - 50) - 15)
      rw [h1, h2]
      rfl
    · have hgo : (drawTextLinesGo cancerP y (l :: ls)).1
          = .drawString 70 y l :: (drawTextLinesGo cancerP (y - 15) ls).1 := by
        simp [drawTextLinesGo, if_neg hy, cancerP]
      rw [hgo]
      simp only [footersIdent, List.all_cons]
      rw [show ((!isFooterPos (.drawString 70 y l)
            || .drawString 70 y l == footerEv) = true) from rfl]
      simpa [footersIdent] using ih (y - 15)

theorem footersIdent_drawTextLines (lines : List String) (y : Int) :
    footersIdent (drawTextLines cancerP lines y).1 = true := by
  have h : (drawTextLines cancerP lines y).1
      = [.setFont "Helvetica" 10, .setFill "#333333"]
        ++ (drawTextLinesGo cancerP y lines).1 := rfl
  rw [h, footersIdent_append, footersIdent_go]
  rfl

/-! ## The C6 scenario: one section of 50 one-line text blocks

Rendered as every section of the scripts renders: title at `y = 742`, text
lines from `y = height - 80 = 712` through `draw_text_lines`, then
`add_footer()` and `showPage()`. -/

def scenarioLines : List String := List.replicate 50 "line"

def scenarioTrace : List Event :=
  [.setFill "#E63946", .setFont "Helvetica-Bold" 18,
   .drawString 50 (pageHeight - 50) "Section Title"]
  ++ (drawTextLines cancerP scenarioLines (pageHeight - 80)).1
  ++ addFooter ++ [.showPage]

/-- **C6** (amended; the claimed line split is refuted by
`two_page_scenario_counterexample`).  With `pageHeight = 792`, margins 50 and
line height 15, a section of 50 one-line text blocks rendered the way the
scripts render sections (title at 742, text from 712) produces exactly 2
physical pages, with 45 lines on the first page and the remaining 5 lines plus
the continuation header on the second, and exactly one footer on each page. -/
theorem two_page_scenario :
    (splitPages scenarioTrace).length = 2
    ∧ ((splitPages scenarioTrace).map fun p => (lineDraws p).length) = [45, 5]
    ∧ ((splitPages scenarioTrace).map fun p => p.countP isFooterPos) = [1, 1]
    ∧ ((splitPages scenarioTrace).map fun p => p.countP fun e =>
        decide (e = .drawString 50 (pageHeight - 30) "Continued Analysis"))
      = [0, 1] := by
  decide

/-- **C6** counterexample: the second page of the scenario carries 5 content
lines, not the 4 the claim states (and the first page 45, not 46). -/
theorem two_page_scenario_counterexample :
    ((splitPages scenarioTrace).map fun p => (lineDraws p).length) = [45, 5]
    ∧ (5 : Nat) ≠ 4 ∧ (45 : Nat) ≠ 46 := by
  decide

/-! ## `generate_cancer_pdf` (cancer_analysis.py, lines 296-555)

The variable text lists (built from the dataframe/stats) are parameters; all
layout coordinates are the script's constants.  `gen` is the rendered
"Generated on …" line. -/

/-- `add_footer(); c.showPage()` — how every non-final section ends. -/
def sectionEnd : List Event := addFooter ++ [.showPage]

def cancerTitleSeg (gen : String) : List Event :=
  [.setFill "#E63946", .setFont "Helvetica-Bold" 18,
   .drawCentred 306 (pageHeight - 100) "COMPREHENSIVE CANCER ANALYSIS REPORT (UNITED STATES)",
   .setFill "#457B9D", .setFont "Helvetica" 16,
   .drawCentred 306 (pageHeight - 150) "Multi-Dimensional Cancer Mortality Analysis",
   .setFill "#A8DADC", .setFont "Helvetica-Oblique" 13,
   .drawCentred 306 (pageHeight - 200) gen,
   .setFill "#A8DADC", .setFont "Helvetica-Oblique" 13,
   .drawCentred 306 (pageHeight - 250) "Analysed by Mwenda E. Njagi @ Github.com/MwendaKE/InsightHub",
   .setFill "#666666", .setFont "Helvetica" 11,
   .drawCentred 306 (pageHeight - 300) "Data Source: CORGIS Cancer Dataset - State-Level Statistics"]

def cancerSummarySeg (summary : List String) : List Event :=
  [.setFill "#E63946", .setFont "Helvetica-Bold" 18,
   .drawString 50 (pageHeight - 50) "Executive Summary"]
  ++ (drawTextLines cancerP summary (pageHeight - 80)).1

def cancerStateSeg : List Event :=
  [.setFill "#457B9D", .setFont "Helvetica-Bold" 16,
   .drawString 50 (pageHeight - 50) "Geographic Analysis: State-Level Patterns",
   .drawImage "top_states.png" 50 (pageHeight - 280) 500 200,
   .drawImage "bottom_states.png" 50 (pageHeight - 500) 500 200]

def cancerRegionalSeg (regional : List String) : List Event :=
  [.setFill "#E63946", .setFont "Helvetica-Bold" 16,
   .drawString 50 (pageHeight - 50) "Regional Patterns Analysis",
   .drawImage "regional_analysis.png" 50 (pageHeight - 330) 500 250,
   .setFill "#333333", .setFont "Helvetica-Bold" 12,
   .drawString 70 (pageHeight - 600) "Regional Summary:"]
  ++ (drawTextLines cancerP regional (pageHeight - 620)).1

def cancerTypesSeg (ctypes : List String) : List Event :=
  [.setFill "#457B9D", .setFont "Helvetica-Bold" 16,
   .drawString 50 (pageHeight - 50) "Cancer Type Analysis",
   .drawImage "cancer_types.png" 50 (pageHeight - 380) 500 300,
   .setFill "#333333", .setFont "Helvetica-Bold" 12,
   .drawString 70 (pageHeight - 700) "Highest Mortality Cancer Types:"]
  ++ (drawTextLines cancerP ctypes (pageHeight - 720)).1

def cancerAgeSeg (age : List String) : List Event :=
  [.setFill "#E63946", .setFont "Helvetica-Bold" 16,
   .drawString 50 (pageHeight - 50) "Age Group Analysis",
   .drawImage "age_analysis.png" 50 (pageHeight - 330) 500 250]
  ++ (drawTextLines cancerP age (pageHeight - 600)).1

def cancerGenderSeg (gender : List String) : List Event :=
  [.setFill "#457B9D", .setFont "Helvetica-Bold" 16,
   .drawString 50 (pageHeight - 50) "Gender and Age Analysis",
   .drawImage "gender_analysis.png" 50 (pageHeight - 330) 500 250]
  ++ (drawTextLines cancerP gender (pageHeight - 600)).1

def cancerRaceSeg (race : List String) : List Event :=
  [.setFill "#E63946", .setFont "Helvetica-Bold" 16,
   .drawString 50 (pageHeight - 50) "Racial Disparities Analysis",
   .drawImage "race_analysis.png" 50 (pageHeight - 380) 500 300]
  ++ (drawTextLines cancerP race (pageHeight - 700)).1

def cancerRecsSeg (recs : List String) : List Event :=
  [.setFill "#E63946", .setFont "Helvetica-Bold" 18,
   .drawCentred 306 (pageHeight - 50) "Strategic Recommendations & Action Plan"]
  ++ (drawTextLines cancerP recs (pageHeight - 80)).1

/-- The full event trace of `generate_cancer_pdf`: acquire the canvas, render
title page and eight sections (each ending `add_footer(); showPage()`), then
the recommendations section ending `add_footer(); c.save()`. -/
def cancerTrace (gen : String)
    (summary regional ctypes age gender race recs : List String) : List Event :=
  (.acquire :: (cancerTitleSeg gen ++ sectionEnd
    ++ cancerSummarySeg summary ++ sectionEnd
    ++ cancerStateSeg ++ sectionEnd
    ++ cancerRegionalSeg regional ++ sectionEnd
    ++ cancerTypesSeg ctypes ++ sectionEnd
    ++ cancerAgeSeg age ++ sectionEnd
    ++ cancerGenderSeg gender ++ sectionEnd
    ++ cancerRaceSeg race ++ sectionEnd
    ++ cancerRecsSeg recs ++ addFooter)) ++ [.save]

/-! ## C7: the artifact lifecycle, with fallible image draws

reportlab's `drawImage` raises if the image file cannot be read; nothing in
the scripts catches it, and `c.save()` is only reached at the end of the
straight-line body.  `runF` runs a trace against an oracle saying which image
paths load, truncating at the first failing `drawImage` (the exception
propagates: nothing after it executes). -/

def runF (ok : String → Bool) : List Event → List Event × Bool
  | [] => ([], true)
  | .drawImage q x y w h :: es =>
    if ok q then
      let r := runF ok es
      (.drawImage q x y w h :: r.1, r.2)
    else ([], false)
  | e :: es =>
    let r := runF ok es
    (e :: r.1, r.2)

/-- Occurrences of an exact event in a trace. -/
def countEv (e : Event) (evs : List Event) : Nat :=
  evs.countP fun x => decide (x = e)

theorem runF_all_ok (evs : List Event) :
    runF (fun _ => true) evs = (evs, true) := by
  induction evs with
  | nil => rfl
  | cons e es ih => cases e <;> simp [runF, ih]

theorem countEv_append (e : Event) (a b : List Event) :
    countEv e (a ++ b) = countEv e a + countEv e b := by
  simp [countEv]

theorem countEv_save_go (lines : List String) (y : Int) :
    countEv .save (drawTextLinesGo cancerP y lines).1 = 0 := by
  induction lines generalizing y with
  | nil => rfl
  | cons l ls ih =>
    by_cases hy : y < 50
    · have hgo : (drawTextLinesGo cancerP y (l :: ls)).1
          = breakEvs cancerP ++ .drawString 70 (pageHeight - 50) l ::
              (drawTextLinesGo cancerP ((pageHeight - 50) - 15) ls).1 := by
        simp [drawTextLinesGo, if_pos hy, cancerP]
      rw [hgo, countEv_append]
      have h1 : countEv .save (breakEvs cancerP) = 0 := by decide
      have h2 : countEv .save (.drawString 70 (pageHeight - 50) l ::
          (drawTextLinesGo cancerP ((pageHeight - 50) - 15) ls).1)
          = countEv .save (drawTextLinesGo cancerP ((pageHeight - 50) - 15) ls).1 := by
        simp [countEv]
      rw [h1, h2, ih]
    · have hgo : (drawTextLinesGo cancerP y (l :: ls)).1
          = .drawString 70 y l :: (drawTextLinesGo cancerP (y - 15) ls).1 := by
        simp [drawTextLinesGo, if_neg hy, cancerP]
      rw [hgo]
      have h2 : countEv .save (.drawString 70 y l ::
          (drawTextLinesGo cancerP (y - 15) ls).1)
          = countEv .save (drawTextLinesGo cancerP (y - 15) ls).1 := by
        simp [countEv]
      rw [h2, ih]

theorem countEv_save_drawTextLines (lines : List String) (y : Int) :
    countEv .save (drawTextLines cancerP lines y).1 = 0 := by
  have h : (drawTextLines cancerP lines y).1
      = [.setFont "Helvetica" 10, .setFill "#333333"]
        ++ (drawTextLinesGo cancerP y lines).1 := rfl
  rw [h, countEv_append, countEv_save_go]
  rfl

/-- If a trace body contains no `save` and `save` is only its final event,
then on any oracle run that fails, the emitted prefix contains no `save`:
the artifact is never flushed on the error path. -/
theorem runF_fail_no_save (ok : String → Bool) (body : List Event)
    (hbody : countEv .save body = 0) :
    (runF ok (body ++ [.save])).2 = false →
      Event.save ∉ (runF ok (body ++ [.save])).1 := by
  induction body with
  | nil =>
    intro hfail
    have : runF ok ([] ++ [.save]) = ([.save], true) := rfl
    rw [this] at hfail
    cases hfail
  | cons e es ih =>
    have hnotsave : e ≠ .save := by
      intro h
      subst h
      simp [countEv, List.countP_cons] at hbody
    have hes : countEv .save es = 0 := by
      simp only [countEv, List.countP_cons] at hbody ⊢
      omega
    intro hfail
    cases e with
    | drawImage q x y w h =>
      by_cases hq : ok q = true
      · have hr : runF ok ((.drawImage q x y w h :: es) ++ [.save])
            = (.drawImage q x y w h :: (runF ok (es ++ [.save])).1,
               (runF ok (es ++ [.save])).2) := by
          simp [runF, hq]
        rw [hr] at hfail ⊢
        intro hmem
        rcases List.mem_cons.mp hmem with h2 | h2
        · cases h2
        · exact ih hes hfail h2
      · have hr : runF ok ((.drawImage q x y w h :: es) ++ [.save])
            = ([], false) := by
          simp only [List.cons_append, runF]
          rw [if_neg hq]
        rw [hr]
        simp
    | setFont n sz =>
      have hr : runF ok ((Event.setFont n sz :: es) ++ [.save])
          = (Event.setFont n sz :: (runF ok (es ++ [.save])).1,
             (runF ok (es ++ [.save])).2) := rfl
      rw [hr] at hfail ⊢
      intro hmem
      rcases List.mem_cons.mp hmem with h2 | h2
      · exact hnotsave h2.symm
      · exact ih hes hfail h2
    | setFill c =>
      have hr : runF ok ((Event.setFill c :: es) ++ [.save])
          = (Event.setFill c :: (runF ok (es ++ [.save])).1,
             (runF ok (es ++ [.save])).2) := rfl
      rw [hr] at hfail ⊢
      intro hmem
      rcases List.mem_cons.mp hmem with h2 | h2
      · exact hnotsave h2.symm
      · exact ih hes hfail h2
    | drawString x y t =>
      have hr : runF ok ((Event.drawString x y t :: es) ++ [.save])
          = (Event.drawString x y t :: (runF ok (es ++ [.save])).1,
             (runF ok (es ++ [.save])).2) := rfl
      rw [hr] at hfail ⊢
      intro hmem
      rcases List.mem_cons.mp hmem with h2 | h2
      · exact hnotsave h2.symm
      · exact ih hes hfail h2
    | drawCentred x y t =>
      have hr : runF ok ((Event.drawCentred x y t :: es) ++ [.save])
          = (Event.drawCentred x y t :: (runF ok (es ++ [.save])).1,
             (runF ok (es ++ [.save])).2) := rfl
      rw [hr] at hfail ⊢
      intro hmem
      rcases List.mem_cons.mp hmem with h2 | h2
      · exact hnotsave h2.symm
      · exact ih hes hfail h2
    | rule a b c d =>
      have hr : runF ok ((Event.rule a b c d :: es) ++ [.save])
          = (Event.rule a b c d :: (runF ok (es ++ [.save])).1,
             (runF ok (es ++ [.save])).2) := rfl
      rw [hr] at hfail ⊢
      intro hmem
      rcases List.mem_cons.mp hmem with h2 | h2
      · exact hnotsave h2.symm
      · exact ih hes hfail h2
    | setStroke c =>
      have hr : runF ok ((Event.setStroke c :: es) ++ [.save])
          = (Event.setStroke c :: (runF ok (es ++ [.save])).1,
             (runF ok (es ++ [.save])).2) := rfl
      rw [hr] at hfail ⊢
      intro hmem
      rcases List.mem_cons.mp hmem with h2 | h2
      · exact hnotsave h2.symm
      · exact ih hes hfail h2
    | setLineWidth w =>
      have hr : runF ok ((Event.setLineWidth w :: es) ++ [.save])
          = (Event.setLineWidth w :: (runF ok (es ++ [.save])).1,
             (runF ok (es ++ [.save])).2) := rfl
      rw [hr] at hfail ⊢
      intro hmem
      rcases List.mem_cons.mp hmem with h2 | h2
      · exact hnotsave h2.symm
      · exact ih hes hfail h2
    | showPage =>
      have hr : runF ok ((Event.showPage :: es) ++ [.save])
          = (Event.showPage :: (runF ok (es ++ [.save])).1,
             (runF ok (es ++ [.save])).2) := rfl
      rw [hr] at hfail ⊢
      intro hmem
      rcases List.mem_cons.mp hmem with h2 | h2
      · exact hnotsave h2.symm
      · exact ih hes hfail h2
    | save => exact absurd rfl hnotsave
    | acquire =>
      have hr : runF ok ((Event.acquire :: es) ++ [.save])
          = (Event.acquire :: (runF ok (es ++ [.save])).1,
             (runF ok (es ++ [.save])).2) := rfl
      rw [hr] at hfail ⊢
      intro hmem
      rcases List.mem_cons.mp hmem with h2 | h2
      · exact hnotsave h2.symm
      · exact ih hes hfail h2

def noSave (evs : List Event) : Bool :=
  evs.all fun e => !(e matches .save)

def noAcquire (evs : List Event) : Bool :=
  evs.all fun e => !(e matches .acquire)

theorem countEv_save_of_noSave (evs : List Event) (h : noSave evs = true) :
    countEv .save evs = 0 := by
  induction evs with
  | nil => rfl
  | cons e es ih =>
    simp only [noSave, List.all_cons, Bool.and_eq_true] at h
    obtain ⟨he, hes⟩ := h
    have h2 := ih (by simpa [noSave] using hes)
    cases e <;> simp_all [countEv, List.countP_cons]

theorem countEv_acquire_of_noAcquire (evs : List Event) (h : noAcquire evs = true) :
    countEv .acquire evs = 0 := by
  induction evs with
  | nil => rfl
  | cons e es ih =>
    simp only [noAcquire, List.all_cons, Bool.and_eq_true] at h
    obtain ⟨he, hes⟩ := h
    have h2 := ih (by simpa [noAcquire] using hes)
    cases e <;> simp_all [countEv, List.countP_cons]

theorem noSave_append (a b : List Event) :
    noSave (a ++ b) = (noSave a && noSave b) := by
  simp [noSave]

theorem noAcquire_append (a b : List Event) :
    noAcquire (a ++ b) = (noAcquire a && noAcquire b) := by
  simp [noAcquire]

theorem go_no_save_no_acquire (lines : List String) (y : Int) :
    noSave (drawTextLinesGo cancerP y lines).1 = true
    ∧ noAcquire (drawTextLinesGo cancerP y lines).1 = true := by
  induction lines generalizing y with
  | nil => exact ⟨rfl, rfl⟩
  | cons l ls ih =>
    by_cases hy : y < 50
    · have hgo : (drawTextLinesGo cancerP y (l :: ls)).1
          = breakEvs cancerP ++ .drawString 70 (pageHeight - 50) l ::
              (drawTextLinesGo cancerP ((pageHeight - 50) - 15) ls).1 := by
        simp [drawTextLinesGo, if_pos hy, cancerP]
      rw [hgo, noSave_append, noAcquire_append]
      refine ⟨?_, ?_⟩
      · rw [show noSave (breakEvs cancerP) = true from by decide]
        simp only [noSave, List.all_cons]
        rw [show (!(Event.drawString 70 (pageHeight - 50) l matches .save)) = true
          from rfl]
        simpa [noSave] using (ih ((pageHeight - 50) - 15)).1
      · rw [show noAcquire (breakEvs cancerP) = true from by decide]
        simp only [noAcquire, List.all_cons]
        rw [show (!(Event.drawString 70 (pageHeight - 50) l matches .acquire)) = true
          from rfl]
        simpa [noAcquire] using (ih ((pageHeight - 50) - 15)).2
    · have hgo : (drawTextLinesGo cancerP y (l :: ls)).1
          = .drawString 70 y l :: (drawTextLinesGo cancerP (y - 15) ls).1 := by
        simp [drawTextLinesGo, if_neg hy, cancerP]
      rw [hgo]
      refine ⟨?_, ?_⟩
      · simp only [noSave, List.all_cons]
        rw [show (!(Event.drawString 70 y l matches Event.save)) = true from rfl]
        simpa [noSave] using (ih (y - 15)).1
      · simp only [noAcquire, List.all_cons]
        rw [show (!(Event.drawString 70 y l matches Event.acquire)) = true from rfl]
        simpa [noAcquire] using (ih (y - 15)).2

theorem dtl_no_save (lines : List String) (y : Int) :
    noSave (drawTextLines cancerP lines y).1 = true := by
  have h : (drawTextLines cancerP lines y).1
      = [.setFont "Helvetica" 10, .setFill "#333333"]
        ++ (drawTextLinesGo cancerP y lines).1 := rfl
  rw [h, noSave_append, (go_no_save_no_acquire lines y).1]
  rfl

theorem dtl_no_acquire (lines : List String) (y : Int) :
    noAcquire (drawTextLines cancerP lines y).1 = true := by
  have h : (drawTextLines cancerP lines y).1
      = [.setFont "Helvetica" 10, .setFill "#333333"]
        ++ (drawTextLinesGo cancerP y lines).1 := rfl
  rw [h, noAcquire_append, (go_no_save_no_acquire lines y).2]
  rfl

/-- The body of `generate_cancer_pdf` before the final `c.save()` contains no
`save` event, and everything after the opening `Canvas(...)` contains no
second acquisition. -/
theorem cancer_body_flags (gen : String)
    (summary regional ctypes age gender race recs : List String) :
    noSave (.acquire :: (cancerTitleSeg gen ++ sectionEnd
      ++ cancerSummarySeg summary ++ sectionEnd
      ++ cancerStateSeg ++ sectionEnd
      ++ cancerRegionalSeg regional ++ sectionEnd
      ++ cancerTypesSeg ctypes ++ sectionEnd
      ++ cancerAgeSeg age ++ sectionEnd
      ++ cancerGenderSeg gender ++ sectionEnd
      ++ cancerRaceSeg race ++ sectionEnd
      ++ cancerRecsSeg recs ++ addFooter)) = true
    ∧ noAcquire (cancerTitleSeg gen ++ sectionEnd
      ++ cancerSummarySeg summary ++ sectionEnd
      ++ cancerStateSeg ++ sectionEnd
      ++ cancerRegionalSeg regional ++ sectionEnd
      ++ cancerTypesSeg ctypes ++ sectionEnd
      ++ cancerAgeSeg age ++ sectionEnd
      ++ cancerGenderSeg gender ++ sectionEnd
      ++ cancerRaceSeg race ++ sectionEnd
      ++ cancerRecsSeg recs ++ addFooter) = true := by
  constructor
  · simp only [noSave, List.all_cons, List.all_append, Bool.and_eq_true]
    refine ⟨rfl, ?_⟩
    simp only [cancerSummarySeg, cancerRegionalSeg, cancerTypesSeg, cancerAgeSeg,
      cancerGenderSeg, cancerRaceSeg, cancerRecsSeg, List.all_append,
      Bool.and_eq_true]
    repeat' constructor
    all_goals
      first
      | rfl
      | (simpa [noSave] using dtl_no_save _ _)
  · simp only [noAcquire, List.all_append, Bool.and_eq_true]
    simp only [cancerSummarySeg, cancerRegionalSeg, cancerTypesSeg, cancerAgeSeg,
      cancerGenderSeg, cancerRaceSeg, cancerRecsSeg, List.all_append,
      Bool.and_eq_true]
    repeat' constructor
    all_goals
      first
      | rfl
      | (simpa [noAcquire] using dtl_no_acquire _ _)

/-- **C7** (amended; refuted as stated by `render_error_path_counterexample`).
The canvas is acquired exactly once, at the very start of
`generate_cancer_pdf`, and the artifact is saved exactly once — as the very
last action of the *normal* exit path (`runF` with an all-ok image oracle runs
the whole trace).  On an error exit path (any image draw failing, the
exception propagating uncaught) `c.save()` is never reached: there is no
try/finally, so the handle is not released there. -/
theorem render_artifact_lifecycle (gen : String)
    (summary regional ctypes age gender race recs : List String) :
    (cancerTrace gen summary regional ctypes age gender race recs).head?
      = some .acquire
    ∧ countEv .acquire (cancerTrace gen summary regional ctypes age gender race recs) = 1
    ∧ (cancerTrace gen summary regional ctypes age gender race recs).getLast?
      = some .save
    ∧ countEv .save (cancerTrace gen summary regional ctypes age gender race recs) = 1
    ∧ runF (fun _ => true) (cancerTrace gen summary regional ctypes age gender race recs)
      = (cancerTrace gen summary regional ctypes age gender race recs, true)
    ∧ ∀ ok : String → Bool,
        (runF ok (cancerTrace gen summary regional ctypes age gender race recs)).2 = false →
        Event.save ∉
          (runF ok (cancerTrace gen summary regional ctypes age gender race recs)).1 := by
  obtain ⟨hns, hna⟩ := cancer_body_flags gen summary regional ctypes age gender race recs
  refine ⟨rfl, ?_, ?_, ?_, runF_all_ok _, ?_⟩
  · rw [cancerTrace, countEv_append]
    have h1 : countEv Event.acquire [Event.save] = 0 := rfl
    rw [h1]
    have h2 : countEv Event.acquire (Event.acquire :: (cancerTitleSeg gen ++ sectionEnd
        ++ cancerSummarySeg summary ++ sectionEnd
        ++ cancerStateSeg ++ sectionEnd
        ++ cancerRegionalSeg regional ++ sectionEnd
        ++ cancerTypesSeg ctypes ++ sectionEnd
        ++ cancerAgeSeg age ++ sectionEnd
        ++ cancerGenderSeg gender ++ sectionEnd
        ++ cancerRaceSeg race ++ sectionEnd
        ++ cancerRecsSeg recs ++ addFooter))
        = 1 + countEv Event.acquire (cancerTitleSeg gen ++ sectionEnd
        ++ cancerSummarySeg summary ++ sectionEnd
        ++ cancerStateSeg ++ sectionEnd
        ++ cancerRegionalSeg regional ++ sectionEnd
        ++ cancerTypesSeg ctypes ++ sectionEnd
        ++ cancerAgeSeg age ++ sectionEnd
        ++ cancerGenderSeg gender ++ sectionEnd
        ++ cancerRaceSeg race ++ sectionEnd
        ++ cancerRecsSeg recs ++ addFooter) := by
      simp [countEv, List.countP_cons]
      omega
    rw [h2, countEv_acquire_of_noAcquire _ hna]
  · rw [cancerTrace]
    exact List.getLast?_concat _
  · rw [cancerTrace, countEv_append]
    rw [countEv_save_of_noSave _ hns]
    rfl
  · intro ok hfail
    exact runF_fail_no_save ok _ (countEv_save_of_noSave _ hns) hfail

theorem render_artifact_lifecycle_witness :
    Event.save ∉
      (runF (fun q => !(q == "top_states.png"))
        (cancerTrace "" [] [] [] [] [] [] [])).1 :=
  (render_artifact_lifecycle "" [] [] [] [] [] [] []).2.2.2.2.2
    (fun q => !(q == "top_states.png")) (by decide)

/-- **C7** counterexample: with `top_states.png` unreadable, the render of
`generate_cancer_pdf` exits on the error path — the run is truncated at the
failing `drawImage`, `c.save()` is never executed (no `save` in the emitted
events), although the normal path ends with exactly one `save`.  The handle is
*not* released on this exit path. -/
theorem render_error_path_counterexample :
    (runF (fun q => !(q == "top_states.png"))
      (cancerTrace "" [] [] [] [] [] [] [])).2 = false
    ∧ Event.save ∉
        (runF (fun q => !(q == "top_states.png"))
          (cancerTrace "" [] [] [] [] [] [] [])).1
    ∧ countEv .save (cancerTrace "" [] [] [] [] [] [] []) = 1 := by
  decide

/-! ## C5 for `generate_cancer_pdf`: one footer per page -/

theorem paStep_acquire (s : Bool × Nat) : paStep s .acquire = s := rfl

theorem runPA_cons (s : Bool × Nat) (e : Event) (l : List Event) :
    runPA s (e :: l) = runPA (paStep s e) l := rfl

theorem paStep_save (s : Bool × Nat) : paStep s .save = s := rfl

theorem runPA_nil (s : Bool × Nat) : runPA s [] = s := rfl

theorem runPA_addFooter (ok : Bool) (n : Nat) :
    runPA (ok, n) addFooter = (ok, n + 1) := rfl

theorem runPA_sectionEnd (ok : Bool) :
    runPA (ok, 0) sectionEnd = (ok, 0) := by cases ok <;> rfl

theorem runPA_title (gen : String) (s : Bool × Nat) :
    runPA s (cancerTitleSeg gen) = s := rfl

theorem runPA_stateSeg (s : Bool × Nat) : runPA s cancerStateSeg = s := rfl

theorem runPA_summarySeg (summary : List String) (ok : Bool) :
    runPA (ok, 0) (cancerSummarySeg summary) = (ok, 0) := by
  rw [cancerSummarySeg, runPA_append]
  exact runPA_drawTextLines _ _ _

theorem runPA_regionalSeg (regional : List String) (ok : Bool) :
    runPA (ok, 0) (cancerRegionalSeg regional) = (ok, 0) := by
  rw [cancerRegionalSeg, runPA_append]
  exact runPA_drawTextLines _ _ _

theorem runPA_typesSeg (ctypes : List String) (ok : Bool) :
    runPA (ok, 0) (cancerTypesSeg ctypes) = (ok, 0) := by
  rw [cancerTypesSeg, runPA_append]
  exact runPA_drawTextLines _ _ _

theorem runPA_ageSeg (age : List String) (ok : Bool) :
    runPA (ok, 0) (cancerAgeSeg age) = (ok, 0) := by
  rw [cancerAgeSeg, runPA_append]
  exact runPA_drawTextLines _ _ _

theorem runPA_genderSeg (gender : List String) (ok : Bool) :
    runPA (ok, 0) (cancerGenderSeg gender) = (ok, 0) := by
  rw [cancerGenderSeg, runPA_append]
  exact runPA_drawTextLines _ _ _

theorem runPA_raceSeg (race : List String) (ok : Bool) :
    runPA (ok, 0) (cancerRaceSeg race) = (ok, 0) := by
  rw [cancerRaceSeg, runPA_append]
  exact runPA_drawTextLines _ _ _

theorem runPA_recsSeg (recs : List String) (ok : Bool) :
    runPA (ok, 0) (cancerRecsSeg recs) = (ok, 0) := by
  rw [cancerRecsSeg, runPA_append]
  exact runPA_drawTextLines _ _ _

theorem pagesOK_cancer (gen : String)
    (summary regional ctypes age gender race recs : List String) :
    pagesOK (cancerTrace gen summary regional ctypes age gender race recs) = true := by
  have key : runPA (true, 0)
      (cancerTrace gen summary regional ctypes age gender race recs) = (true, 1) := by
    rw [cancerTrace, runPA_append]
    simp only [runPA_cons, runPA_nil, paStep_acquire, paStep_save, runPA_append,
      runPA_title, runPA_sectionEnd, runPA_stateSeg,
      runPA_summarySeg, runPA_regionalSeg, runPA_typesSeg, runPA_ageSeg,
      runPA_genderSeg, runPA_raceSeg, runPA_recsSeg, runPA_addFooter]
  rw [pagesOK, key]
  rfl

theorem footersIdent_cons (e : Event) (l : List Event) :
    footersIdent (e :: l) = ((!isFooterPos e || e == footerEv) && footersIdent l) := by
  simp [footersIdent]

theorem footersIdent_title (gen : String) :
    footersIdent (cancerTitleSeg gen) = true := rfl

theorem footersIdent_addFooter : footersIdent addFooter = true := rfl

theorem footersIdent_sectionEnd : footersIdent sectionEnd = true := rfl

theorem footersIdent_stateSeg : footersIdent cancerStateSeg = true := rfl

theorem footersIdent_summarySeg (summary : List String) :
    footersIdent (cancerSummarySeg summary) = true := by
  rw [cancerSummarySeg, footersIdent_append, footersIdent_drawTextLines]
  rfl

theorem footersIdent_regionalSeg (regional : List String) :
    footersIdent (cancerRegionalSeg regional) = true := by
  rw [cancerRegionalSeg, footersIdent_append, footersIdent_drawTextLines]
  rfl

theorem footersIdent_typesSeg (ctypes : List String) :
    footersIdent (cancerTypesSeg ctypes) = true := by
  rw [cancerTypesSeg, footersIdent_append, footersIdent_drawTextLines]
  rfl

theorem footersIdent_ageSeg (age : List String) :
    footersIdent (cancerAgeSeg age) = true := by
  rw [cancerAgeSeg, footersIdent_append, footersIdent_drawTextLines]
  rfl

theorem footersIdent_genderSeg (gender : List String) :
    footersIdent (cancerGenderSeg gender) = true := by
  rw [cancerGenderSeg, footersIdent_append, footersIdent_drawTextLines]
  rfl

theorem footersIdent_raceSeg (race : List String) :
    footersIdent (cancerRaceSeg race) = true := by
  rw [cancerRaceSeg, footersIdent_append, footersIdent_drawTextLines]
  rfl

theorem footersIdent_recsSeg (recs : List String) :
    footersIdent (cancerRecsSeg recs) = true := by
  rw [cancerRecsSeg, footersIdent_append, footersIdent_drawTextLines]
  rfl

theorem footersIdent_cancer (gen : String)
    (summary regional ctypes age gender race recs : List String) :
    footersIdent (cancerTrace gen summary regional ctypes age gender race recs)
      = true := by
  rw [cancerTrace, footersIdent_append, footersIdent_cons]
  simp only [footersIdent_append, footersIdent_title, footersIdent_sectionEnd,
    footersIdent_stateSeg, footersIdent_summarySeg, footersIdent_regionalSeg,
    footersIdent_typesSeg, footersIdent_ageSeg, footersIdent_genderSeg,
    footersIdent_raceSeg, footersIdent_recsSeg, footersIdent_addFooter]
  rfl

/-! ## `generate_pdf` (hiv_insight.py, lines 212-463)

Pages 2-5 place text with plain unguarded loops (`for line: draw; y -= lh`);
only the page-6 recommendations loop checks for overflow.  The summary list
and the increase/decrease row strings come from the data and are parameters;
the other text lists are the script's literals. -/

/-- An inline `for line in lines: drawString(x, y, line); y -= lh` loop with
no overflow handling. -/
def plainLoop (x lh : Int) : Int → List String → List Event
  | _, [] => []
  | y, l :: ls => .drawString x y l :: plainLoop x lh (y - lh) ls

def hivAnalysisText : List String :=
  ["The global HIV prevalence trend shows a clear pattern:",
   "• Rapid increase from 1990s to early 2000s",
   "• Peak around 2004-2006 due to improved detection and reporting",
   "• Gradual decline post-2010, reflecting successful intervention programs",
   "• Current stabilization suggests effective management strategies",
   "",
   "This trend reflects the success of global health initiatives, improved",
   "antiretroviral therapy access, and better prevention education."]

def hivTopAnalysis : List String :=
  ["High prevalence countries share common characteristics:",
   "• Limited healthcare infrastructure in rural areas",
   "• Economic challenges affecting prevention programs",
   "• Cultural factors and stigma around testing",
   "• Historical patterns of disease transmission",
   "",
   "Countries like Eswatini, Lesotho, and Botswana show:",
   "• Prevalence rates above 20%, indicating severe epidemics",
   "• Need for targeted international support",
   "• Success stories in some regions show progress is possible"]

def hivBottomAnalysis : List String :=
  ["Low prevalence countries demonstrate successful strategies:",
   "• Comprehensive sex education programs",
   "• Widespread availability of condoms and prevention tools",
   "• Strong healthcare systems and early detection",
   "• Cultural openness about sexual health",
   "",
   "Key success factors include:",
   "• Government commitment to HIV prevention",
   "• International cooperation and funding",
   "• Community-based education programs",
   "• Integration of HIV services with general healthcare"]

def hivChangeAnalysis : List String :=
  ["",
   "Reasons for significant changes:",
   "INCREASES may be due to:",
   "• Improved testing and case detection",
   "• Population growth in affected areas",
   "• Breakdown of healthcare systems",
   "• Emergence of drug-resistant strains",
   "",
   "DECREASES typically result from:",
   "• Successful prevention programs",
   "• Widespread antiretroviral therapy",
   "• Behavioral changes and education",
   "• International aid and support"]

def hivRecommendations : List String :=
  ["1. TARGETED INTERVENTIONS:",
   "   • Focus resources on high-prevalence regions",
   "   • Customize programs to local cultural contexts",
   "   • Address economic barriers to healthcare access",
   "",
   "2. PREVENTION STRATEGIES:",
   "   • Expand comprehensive sex education",
   "   • Increase availability of prevention tools",
   "   • Combat stigma through public awareness",
   "",
   "3. TREATMENT ACCESS:",
   "   • Improve antiretroviral therapy availability",
   "   • Strengthen healthcare infrastructure",
   "   • Support research for better treatments",
   "",
   "4. GLOBAL COOPERATION:",
   "   • Maintain international funding commitments",
   "   • Share successful strategies across borders",
   "   • Coordinate research and development efforts",
   "",
   "5. DATA-DRIVEN APPROACH:",
   "   • Continue robust surveillance and reporting",
   "   • Use data to identify emerging trends",
   "   • Evaluate program effectiveness regularly"]

/-- The `for line in recommendations` loop of `hiv_insight.py` (lines
450-458): draw at `(70, y)`, decrement by 15, on overflow take the
`hivBreakEvs` break (with its stray second footer). -/
def hivRecLoop : Int → List String → List Event
  | _, [] => []
  | y, l :: ls =>
    if y - 15 < 50 then
      .drawString 70 y l :: (hivBreakEvs ++ hivRecLoop (pageHeight - 50) ls)
    else
      .drawString 70 y l :: hivRecLoop (y - 15) ls

def hivTitleSeg (gen : String) : List Event :=
  [.setFill "#2E86AB", .setFont "Helvetica-Bold" 18,
   .drawCentred 306 (pageHeight - 100) "HIV PREVALENCE ANALYSIS REPORT",
   .setFill "#A23B72", .setFont "Helvetica" 16,
   .drawCentred 306 (pageHeight - 150) "Comprehensive Global HIV Trends Analysis",
   .setFill "#F18F01", .setFont "Helvetica-Oblique" 13,
   .drawCentred 306 (pageHeight - 200) gen,
   .setFill "#F18F01", .setFont "Helvetica-Oblique" 13,
   .drawCentred 306 (pageHeight - 250) "Analysed by Mwenda E. Njagi @ Github.com/MwendaKE/InsightHub",
   .setFill "#666666", .setFont "Helvetica" 11,
   .drawCentred 306 (pageHeight - 300) "Data Source: World Development Indicators",
   .setStroke "#2E86AB", .setLineWidth 1,
   .rule 50 (pageHeight - 280) (pageWidth - 50) (pageHeight - 280)]

def hivSummarySeg (summary : List String) : List Event :=
  [.setFill "#2E86AB", .setFont "Helvetica-Bold" 18,
   .drawString 50 (pageHeight - 50) "Executive Summary",
   .setFill "#333333", .setFont "Helvetica" 10]
  ++ plainLoop 70 20 (pageHeight - 80) summary
  ++ [.setFill "#2E86AB", .setFont "Helvetica-Bold" 16,
      .drawString 50 (((pageHeight - 80) - 20 * (summary.length : Int)) - 40)
        "Global HIV Prevalence Trend",
      .drawImage "global_trend.png" 50
        (((pageHeight - 80) - 20 * (summary.length : Int)) - 270) 500 200]
  ++ plainLoop 70 15 (((pageHeight - 80) - 20 * (summary.length : Int)) - 290)
      hivAnalysisText

def hivTopSeg : List Event :=
  [.setFill "#A23B72", .setFont "Helvetica-Bold" 16,
   .drawString 50 (pageHeight - 50) "Top 10 Countries by HIV Prevalence",
   .drawImage "top_countries.png" 50 (pageHeight - 250) 500 180]
  ++ plainLoop 70 15 (pageHeight - 450) hivTopAnalysis

def hivBottomSeg : List Event :=
  [.setFill "#F18F01", .setFont "Helvetica-Bold" 16,
   .drawString 50 (pageHeight - 50) "Countries with Lowest HIV Prevalence",
   .drawImage "bottom_countries.png" 50 (pageHeight - 250) 500 180]
  ++ plainLoop 70 15 (pageHeight - 450) hivBottomAnalysis

def hivChangesSeg (incLines decLines : List String) : List Event :=
  [.setFill "#2E86AB", .setFont "Helvetica-Bold" 16,
   .drawString 50 (pageHeight - 50) "Notable Changes in HIV Prevalence",
   .setFill "#333333", .setFont "Helvetica-Bold" 12,
   .drawString 70 (pageHeight - 80) "Largest Increases:",
   .setFont "Helvetica" 10]
  ++ plainLoop 90 15 (pageHeight - 100) incLines
  ++ [.setFont "Helvetica-Bold" 12,
      .drawString 70 (((pageHeight - 100) - 15 * (incLines.length : Int)) - 10)
        "Largest Decreases:",
      .setFont "Helvetica" 10]
  ++ plainLoop 90 15 (((pageHeight - 100) - 15 * (incLines.length : Int)) - 25)
      decLines
  ++ plainLoop 70 15
      (((((pageHeight - 100) - 15 * (incLines.length : Int)) - 25)
        - 15 * (decLines.length : Int)) - 10)
      hivChangeAnalysis

def hivRecsSeg : List Event :=
  [.setFill "#A23B72", .setFont "Helvetica-Bold" 18,
   .drawCentred 306 (pageHeight - 50) "Recommendations and Future Directions",
   .setFill "#333333", .setFont "Helvetica" 10]
  ++ hivRecLoop (pageHeight - 80) hivRecommendations

/-- The full event trace of `generate_pdf` (HIV): acquire, five pages each
ending `add_footer(); showPage()`, then the recommendations page ending
`add_footer(); c.save()`. -/
def hivTrace (gen : String) (summary incLines decLines : List String) : List Event :=
  (.acquire :: (hivTitleSeg gen ++ sectionEnd
    ++ hivSummarySeg summary ++ sectionEnd
    ++ hivTopSeg ++ sectionEnd
    ++ hivBottomSeg ++ sectionEnd
    ++ hivChangesSeg incLines decLines ++ sectionEnd
    ++ hivRecsSeg ++ addFooter)) ++ [.save]

theorem paStep_drawString (s : Bool × Nat) (x y : Int) (t : String) :
    paStep s (.drawString x y t) = s := rfl

theorem runPA_plainLoop (x lh : Int) (lines : List String) (y : Int)
    (s : Bool × Nat) :
    runPA s (plainLoop x lh y lines) = s := by
  induction lines generalizing y s with
  | nil => rfl
  | cons l ls ih => rw [plainLoop, runPA_cons, paStep_drawString]; exact ih _ _

theorem footersIdent_plainLoop (x lh : Int) (lines : List String) (y : Int) :
    footersIdent (plainLoop x lh y lines) = true := by
  induction lines generalizing y with
  | nil => rfl
  | cons l ls ih =>
    rw [plainLoop, footersIdent_cons]
    rw [show ((!isFooterPos (.drawString x y l)
          || .drawString x y l == footerEv) = true) from rfl]
    rw [ih (y - lh)]
    rfl

theorem runPA_hivTitle (gen : String) (s : Bool × Nat) :
    runPA s (hivTitleSeg gen) = s := rfl

theorem runPA_hivSummary (summary : List String) (s : Bool × Nat) :
    runPA s (hivSummarySeg summary) = s := by
  rw [hivSummarySeg]
  simp only [runPA_append, runPA_plainLoop]
  rfl

theorem runPA_hivTop (s : Bool × Nat) : runPA s hivTopSeg = s := by
  rw [hivTopSeg]
  simp only [runPA_append, runPA_plainLoop]
  rfl

theorem runPA_hivBottom (s : Bool × Nat) : runPA s hivBottomSeg = s := by
  rw [hivBottomSeg]
  simp only [runPA_append, runPA_plainLoop]
  rfl

theorem runPA_hivChanges (incLines decLines : List String) (s : Bool × Nat) :
    runPA s (hivChangesSeg incLines decLines) = s := by
  rw [hivChangesSeg]
  simp only [runPA_append, runPA_plainLoop]
  rfl

theorem runPA_hivRecs (s : Bool × Nat) : runPA s hivRecsSeg = s := rfl

theorem pagesOK_hiv (gen : String) (summary incLines decLines : List String) :
    pagesOK (hivTrace gen summary incLines decLines) = true := by
  have key : runPA (true, 0) (hivTrace gen summary incLines decLines)
      = (true, 1) := by
    rw [hivTrace, runPA_append]
    simp only [runPA_cons, runPA_nil, paStep_acquire, paStep_save, runPA_append,
      runPA_hivTitle, runPA_sectionEnd, runPA_hivSummary, runPA_hivTop,
      runPA_hivBottom, runPA_hivChanges, runPA_hivRecs, runPA_addFooter]
  rw [pagesOK, key]
  rfl

theorem footersIdent_hivTitle (gen : String) :
    footersIdent (hivTitleSeg gen) = true := rfl

theorem footersIdent_hivSummary (summary : List String) :
    footersIdent (hivSummarySeg summary) = true := by
  rw [hivSummarySeg]
  simp only [footersIdent_append, footersIdent_plainLoop]
  rfl

theorem footersIdent_hivTop : footersIdent hivTopSeg = true := by
  rw [hivTopSeg]
  simp only [footersIdent_append, footersIdent_plainLoop]
  rfl

theorem footersIdent_hivBottom : footersIdent hivBottomSeg = true := by
  rw [hivBottomSeg]
  simp only [footersIdent_append, footersIdent_plainLoop]
  rfl

theorem footersIdent_hivChanges (incLines decLines : List String) :
    footersIdent (hivChangesSeg incLines decLines) = true := by
  rw [hivChangesSeg]
  simp only [footersIdent_append, footersIdent_plainLoop]
  rfl

theorem footersIdent_hivRecs : footersIdent hivRecsSeg = true := rfl

theorem footersIdent_hiv (gen : String) (summary incLines decLines : List String) :
    footersIdent (hivTrace gen summary incLines decLines) = true := by
  rw [hivTrace, footersIdent_append, footersIdent_cons]
  simp only [footersIdent_append, footersIdent_hivTitle, footersIdent_sectionEnd,
    footersIdent_hivSummary, footersIdent_hivTop, footersIdent_hivBottom,
    footersIdent_hivChanges, footersIdent_hivRecs, footersIdent_addFooter]
  rfl

/-- **C5** (confirmed).  For every input (any text lists, any number of
data-driven lines), every finalized physical page of `generate_cancer_pdf`
and of the HIV `generate_pdf` — every `showPage`-delimited page and the final
page flushed by `save` — carries exactly one footer draw, and every
footer-position draw (a centred string at 20 points from the page bottom) is
the one canonical footer event: the identical footer text centred at
`(width/2, 20) = (306, 20)`. -/
theorem every_page_exactly_one_footer (genC genH : String)
    (summary regional ctypes age gender race recs : List String)
    (hsummary incLines decLines : List String) :
    pagesOK (cancerTrace genC summary regional ctypes age gender race recs) = true
    ∧ footersIdent (cancerTrace genC summary regional ctypes age gender race recs)
      = true
    ∧ pagesOK (hivTrace genH hsummary incLines decLines) = true
    ∧ footersIdent (hivTrace genH hsummary incLines decLines) = true :=
  ⟨pagesOK_cancer genC summary regional ctypes age gender race recs,
   footersIdent_cancer genC summary regional ctypes age gender race recs,
   pagesOK_hiv genH hsummary incLines decLines,
   footersIdent_hiv genH hsummary incLines decLines⟩

end InsightHub
